import Mathlib

/-!
Verification of the openbci driver (src/openbci.go) against its
natural-language specification.  The Go source is shallowly embedded:
bytes are `Nat` (reduced mod 256 where the Go code uses `uint8`
arithmetic), buffers are `List Nat`, the serial transport is a pair of
oracle functions giving the outcome of the i-th read / i-th write, and
the (possibly non-terminating) reset handshake is interpreted with
explicit fuel, `none` meaning the fuel ran out.
-/

namespace OpenBCI

/-- Embeds the `Command` map literal, src/openbci.go lines 29-36:
a lookup from command name to its single-byte wire value. -/
def Command (s : String) : Option Nat :=
  if s = "stop" then some 0x73
  else if s = "start" then some 0x62
  else if s = "reset" then some 0x76
  else if s = "footer" then some 0xc0
  else if s = "header" then some 0xa0
  else if s = "init" then some 0x24
  else none

/-- `Command[s]` as used by the Go code (indexing the map yields the
byte value; every use in the source is with a present key). -/
def cmd (s : String) : Nat := (Command s).getD 0

/-- Embeds `isReset`, src/openbci.go lines 69-76: scan the buffer for
the reset command byte. -/
def isReset : List Nat → Bool
  | [] => false
  | v :: rest => if v = cmd "reset" then true else isReset rest

/-- Embeds the `MockDevice` struct, src/openbci.go lines 148-153.
`on`, `seqcounter`, `datacounter`, `readstate` as in the source; the
Go fields are `uint8`, modelled as `Nat` with arithmetic mod 256. -/
structure MockDevice where
  isOn : Bool  -- the Go field `on`
  seqcounter : Nat
  datacounter : Nat
  readstate : Nat
deriving DecidableEq

/-- Embeds `NewMockDevice`, src/openbci.go line 146 (all other fields
are Go zero values). -/
def newMockDevice : MockDevice := ⟨false, 0, 0, 0⟩

/-- Embeds `MockDevice.Write`, src/openbci.go lines 195-208.  Result is
(bytes written, error, new state); the error is always `none` (nil). -/
def MockDevice.write (md : MockDevice) (p : List Nat) : Nat × Option Nat × MockDevice :=
  match p with
  | [] => (0, none, md)
  | b :: _ =>
    let md2 := if b = cmd "start" then { md with isOn := true }
               else if b = cmd "stop" then { md with isOn := false }
               else md
    (p.length, none, md2)

/-- One iteration of the `for idx := range p` loop body of
`MockDevice.Read`, src/openbci.go lines 158-190: the `switch` on
`readstate`.  `crypto/rand.Read` is modelled by an injected byte
stream `rnd` consumed at position `rpos` (the second component of the
state pair).  Result: (byte stored into the slot, if any; new state).
A `readstate` outside 0..4 matches no case and leaves the slot and the
state unchanged. -/
def MockDevice.readStep (rnd : Nat → Nat) : MockDevice × Nat → Option Nat × (MockDevice × Nat)
  | (md, rpos) =>
    match md.readstate with
    | 0 => (some (cmd "footer"), ({ md with readstate := (md.readstate + 1) % 256 }, rpos))
    | 1 => (some (cmd "header"), ({ md with readstate := (md.readstate + 1) % 256 }, rpos))
    | 2 => (some md.seqcounter, ({ md with readstate := (md.readstate + 1) % 256 }, rpos))
    | 3 =>
      let dc := (md.datacounter + 1) % 256
      if dc = 30 then
        (some (rnd rpos % 256),
         ({ md with readstate := (md.readstate + 1) % 256, datacounter := 0 }, rpos + 1))
      else
        (some (rnd rpos % 256), ({ md with datacounter := dc }, rpos + 1))
    | 4 =>
      (some (cmd "footer"),
       ({ md with readstate := 1, seqcounter := (md.seqcounter + 1) % 256 }, rpos))
    | _ => (none, (md, rpos))

/-- The `for idx := range p` loop of `MockDevice.Read`,
src/openbci.go lines 158-190, over the caller's buffer `p` (its prior
contents).  Result: (new buffer contents, `b` = slots filled, new state). -/
def MockDevice.readLoop (rnd : Nat → Nat) : MockDevice × Nat → List Nat → List Nat × Nat × (MockDevice × Nat)
  | s, [] => ([], 0, s)
  | s, slot :: rest =>
    match MockDevice.readStep rnd s with
    | (some byte, s2) =>
      let r := MockDevice.readLoop rnd s2 rest
      (byte :: r.1, r.2.1 + 1, r.2.2)
    | (none, s2) =>
      let r := MockDevice.readLoop rnd s2 rest
      (slot :: r.1, r.2.1, r.2.2)

/-- Embeds `MockDevice.Read`, src/openbci.go lines 155-193: if `on`,
run the slot loop; otherwise the buffer and state are untouched and
`b = 0`.  Result: (buffer contents, b, error, new state); the error is
always `none` (the Go method returns `b, nil`). -/
def MockDevice.read (rnd : Nat → Nat) (s : MockDevice × Nat) (p : List Nat) :
    List Nat × Nat × Option Nat × (MockDevice × Nat) :=
  if s.1.isOn then
    let r := MockDevice.readLoop rnd s p
    (r.1, r.2.1, none, r.2.2)
  else (p, 0, none, s)

/-! ### The real `Device` and its transport -/

/-- Outcome of one read on the underlying transport (`d.r.Read` on a
1-byte buffer): `data none` = 0 bytes and nil error, `data (some b)` =
the byte `b` was stored into the buffer, `eof` = the `io.EOF` error,
`fail c` = any other (hard) error, tagged by a code. -/
inductive ReadOut where
  | data : Option Nat → ReadOut
  | eof : ReadOut
  | fail : Nat → ReadOut
deriving DecidableEq

/-- Outcome of one write on the underlying transport (`d.w.Write`):
`ok n` = `n` bytes written, nil error; `fail c` = an error. -/
inductive WriteOut where
  | ok : Nat → WriteOut
  | fail : Nat → WriteOut
deriving DecidableEq

/-- A Go `error` value as observed by the driver: nil is `Option.none`
at the use sites; `eof` is `io.EOF`; `other c` is any other error. -/
inductive Err where
  | eof : Err
  | other : Nat → Err
deriving DecidableEq

/-- The underlying serial transport, as oracles: `reads i` is the
outcome of the i-th read issued on it, `writes i buf` the outcome of
the i-th write (of buffer `buf`). -/
structure Transport where
  reads : Nat → ReadOut
  writes : Nat → List Nat → WriteOut

/-- Progress made on a transport: reads consumed, writes issued, and
the log of buffers handed to the transport's write, oldest first. -/
structure TState where
  rpos : Nat
  wpos : Nat
  wlog : List (List Nat)
deriving DecidableEq

/-- A fresh transport run: nothing read or written yet. -/
def TState.start : TState := ⟨0, 0, []⟩

/-- Embeds `Device.Read`, src/openbci.go lines 61-67, specialised to
the 1-byte buffer used by the handshake: delegate to the transport;
on any error return `(0, err)`, otherwise `(n, nil)`.  Result:
((n, error), buffer byte after the call, transport progress). -/
def Device.read (t : Transport) (st : TState) (buf : Nat) :
    (Nat × Option Err) × Nat × TState :=
  match t.reads st.rpos with
  | .data none => ((0, none), buf, { st with rpos := st.rpos + 1 })
  | .data (some b) => ((1, none), b, { st with rpos := st.rpos + 1 })
  | .eof => ((0, some .eof), buf, { st with rpos := st.rpos + 1 })
  | .fail c => ((0, some (.other c)), buf, { st with rpos := st.rpos + 1 })

/-- `scrolling[i] = b` for the 3-byte handshake window (`i` is already
reduced mod 3 at the call site, as in `scrolling[idx%3] = buf[0]`). -/
def scrollSet (scr : Nat × Nat × Nat) (i : Nat) (b : Nat) : Nat × Nat × Nat :=
  if i = 0 then (b, scr.2.1, scr.2.2)
  else if i = 1 then (scr.1, b, scr.2.2)
  else (scr.1, scr.2.1, b)

mutual

/-- Embeds `Device.Write`, src/openbci.go lines 78-93, interpreted with
fuel (first `Nat` argument); a `none` result means the run did not
finish within the fuel.  If the buffer contains the reset byte the
call diverts into `Device.reset` and on error returns `(0, err)`;
otherwise the buffer goes to the transport (and is logged), a failed
transport write returns `(0, err)`, a successful one `(n, nil)`. -/
def Device.write (t : Transport) : Nat → List Nat → TState → Option (Nat × Option Err) × TState
  | 0, _, st => (none, st)
  | fuel + 1, buf, st =>
    if isReset buf then
      match Device.reset t fuel st with
      | (none, st2) => (none, st2)
      | (some (_, some e), st2) => (some (0, some e), st2)
      | (some (n, none), st2) => (some (n, none), st2)
    else
      match t.writes st.wpos buf with
      | .ok n => (some (n, none), { st with wpos := st.wpos + 1, wlog := st.wlog ++ [buf] })
      | .fail c =>
        (some (0, some (.other c)), { st with wpos := st.wpos + 1, wlog := st.wlog ++ [buf] })

/-- Embeds `Device.reset`, src/openbci.go lines 95-136 (the part before
the polling loop).  The incoming buffer is discarded (`buf =
make([]byte, 1)`, so the loop's 1-byte buffer starts at the zero
byte).  Writes stop then reset through `Device.write` — the source's
`d.Write` — aborting with the accumulated count on error, then enters
the polling loop with a zeroed window and `idx = 0`. -/
def Device.reset (t : Transport) : Nat → TState → Option (Nat × Option Err) × TState
  | 0, st => (none, st)
  | fuel + 1, st =>
    match Device.write t fuel [cmd "stop"] st with
    | (none, st1) => (none, st1)
    | (some (_, some e), st1) => (some (0, some e), st1)
    | (some (n0, none), st1) =>
      match Device.write t fuel [cmd "reset"] st1 with
      | (none, st2) => (none, st2)
      | (some (_, some e), st2) => (some (n0, some e), st2)
      | (some (n1, none), st2) =>
        Device.resetPoll t fuel (n0 + n1) st2 0 (0, 0, 0) 0

/-- Embeds the `for` polling loop of `Device.reset`, src/openbci.go
lines 118-135.  Arguments: accumulated count `n`, transport progress,
the 1-byte read buffer's current byte, the scrolling window, `idx`.
One read per iteration: `io.EOF` retries, any other error returns
`(n, err)`, otherwise `buf[0]` is pushed into the window at `idx%3`;
when the window is all init bytes, write start and return. -/
def Device.resetPoll (t : Transport) :
    Nat → Nat → TState → Nat → Nat × Nat × Nat → Nat → Option (Nat × Option Err) × TState
  | 0, _, st, _, _, _ => (none, st)
  | fuel + 1, n, st, bufB, scr, idx =>
    match Device.read t st bufB with
    | ((_, some .eof), bufB2, st2) => Device.resetPoll t fuel n st2 bufB2 scr idx
    | ((_, some (.other c)), _, st2) => (some (n, some (.other c)), st2)
    | ((_, none), bufB2, st2) =>
      let scr2 := scrollSet scr (idx % 3) bufB2
      if scr2 = (cmd "init", cmd "init", cmd "init") then
        match Device.write t fuel [cmd "start"] st2 with
        | (none, st3) => (none, st3)
        | (some (_, some e), st3) => (some (n, some e), st3)
        | (some (n2, none), st3) => (some (n + n2, none), st3)
      else Device.resetPoll t fuel n st2 bufB2 scr2 (idx + 1)

end

/-- The tail of a polling-loop iteration after a successful read
pushed the byte `bufB` into the window: the window update, the
three-in-a-row check, and on success the start write
(src/openbci.go lines 125-134).  `Device.resetPoll` unfolds to this
after every non-EOF, non-error read. -/
def Device.pollPush (t : Transport) (fuel n : Nat) (st : TState) (bufB : Nat)
    (scr : Nat × Nat × Nat) (idx : Nat) : Option (Nat × Option Err) × TState :=
  let scr2 := scrollSet scr (idx % 3) bufB
  if scr2 = (cmd "init", cmd "init", cmd "init") then
    match Device.write t fuel [cmd "start"] st with
    | (none, st3) => (none, st3)
    | (some (_, some e), st3) => (some (n, some e), st3)
    | (some (n2, none), st3) => (some (n + n2, none), st3)
  else Device.resetPoll t fuel n st bufB scr2 (idx + 1)

/-- State after `n` micro-steps of the mock read state machine. -/
def mockIter (rnd : Nat → Nat) (s : MockDevice × Nat) : Nat → MockDevice × Nat
  | 0 => s
  | n + 1 => (MockDevice.readStep rnd (mockIter rnd s n)).2

/-- The byte emitted by the `n`-th micro-step of the mock read state
machine started at `s` (0 if that step fills no slot, which never
happens from a reachable state). -/
def mockStream (rnd : Nat → Nat) (s : MockDevice × Nat) (n : Nat) : Nat :=
  ((MockDevice.readStep rnd (mockIter rnd s n)).1).getD 0

/-! ### Concrete transports and states used by the claims -/

/-- The transport of claim C1: every write is accepted (reporting the
buffer length), and successive single-byte reads deliver
0x01, 0x24, 0x24, 0x24, 0x02 (and 0x02 again thereafter). -/
def transportC1 : Transport :=
  { reads := fun i => ReadOut.data (some ([0x01, 0x24, 0x24, 0x24, 0x02].getD i 0x02)),
    writes := fun _ b => WriteOut.ok b.length }

/-- The transport of claim C2's failing input: every write is accepted
and every read immediately delivers an init byte, so the read stream
consists of nothing but consecutive init bytes. -/
def transportC2 : Transport :=
  { reads := fun _ => ReadOut.data (some 0x24),
    writes := fun _ b => WriteOut.ok b.length }

/-- The transport of claim C3's scenario: the first write (the
handshake's stop command) succeeds, every later write fails with a
transport error. -/
def transportC3 : Transport :=
  { reads := fun _ => ReadOut.data none,
    writes := fun i _ => if i = 0 then WriteOut.ok 1 else WriteOut.fail 7 }

/-- A freshly created, then armed, mock device (a start byte written
to `newMockDevice`), paired with the random source position 0. -/
def armedMock : MockDevice × Nat := ((MockDevice.write newMockDevice [cmd "start"]).2.2, 0)

/-- The machine state at which packet `k` of the armed mock device's
emission begins its header (readstate 1), with `k` full packets'
payload already drawn from the random source. -/
def packetState (k : Nat) : MockDevice × Nat := (⟨true, k % 256, 0, 1⟩, 30 * k)

/-! ### Basic lemmas -/

@[simp] theorem cmd_stop : cmd "stop" = 0x73 := rfl

@[simp] theorem cmd_start : cmd "start" = 0x62 := rfl

@[simp] theorem cmd_reset : cmd "reset" = 0x76 := rfl

@[simp] theorem cmd_footer : cmd "footer" = 0xc0 := rfl

@[simp] theorem cmd_header : cmd "header" = 0xa0 := rfl

@[simp] theorem cmd_init : cmd "init" = 0x24 := rfl

/-! ### Claims about the small pure parts: C8, C10, C6, C7 -/

/-- Claim C8: the reset-detection predicate returns true for a buffer
if and only if the byte 0x76 occurs at some position in it; in
particular it returns false for every buffer with no occurrence,
including the empty buffer. -/
theorem claim_C8 (buf : List Nat) : isReset buf = true ↔ 0x76 ∈ buf := by
  induction buf with
  | nil => simp [isReset]
  | cons v rest ih =>
    by_cases h : v = cmd "reset"
    · simp [isReset, h]
    · simp only [isReset, cmd_reset] at h ⊢
      rw [if_neg h]
      simp only [ih, List.mem_cons]
      constructor
      · exact Or.inr
      · rintro (hv | hv)
        · exact absurd hv.symm h
        · exact hv

/-- Claim C10: the command table maps exactly the six names stop,
start, reset, footer, header, init to the byte values 0x73, 0x62,
0x76, 0xC0, 0xA0, 0x24 respectively: each of the six lookups yields
its table value, and no other name is present in the table. -/
theorem claim_C10 :
    (Command "stop" = some 0x73 ∧ Command "start" = some 0x62 ∧
     Command "reset" = some 0x76 ∧ Command "footer" = some 0xc0 ∧
     Command "header" = some 0xa0 ∧ Command "init" = some 0x24) ∧
    ∀ s b, Command s = some b →
      s ∈ ["stop", "start", "reset", "footer", "header", "init"] := by
  refine ⟨⟨rfl, rfl, rfl, rfl, rfl, rfl⟩, ?_⟩
  intro s b h
  unfold Command at h
  split_ifs at h with h1 h2 h3 h4 h5 h6
  · simp [h1]
  · simp [h2]
  · simp [h3]
  · simp [h4]
  · simp [h5]
  · simp [h6]

/-- Witness for claim C10's hypothesis-bearing part at a concrete
name: the table's entry for "reset" places "reset" among the six
names. -/
theorem claim_C10_witness :
    "reset" ∈ ["stop", "start", "reset", "footer", "header", "init"] :=
  claim_C10.2 "reset" 0x76 rfl

/-- Claim C6: `MockDevice.Write` on an empty buffer returns (0, nil)
and changes no state; on any non-empty buffer it inspects only the
first byte — 0x62 arms, 0x73 disarms, any other first byte leaves the
state unchanged — and returns the full input length with no error. -/
theorem claim_C6 (md : MockDevice) (b : Nat) (rest : List Nat) :
    MockDevice.write md [] = (0, none, md) ∧
    MockDevice.write md (b :: rest) =
      (rest.length + 1, none,
        if b = 0x62 then { md with isOn := true }
        else if b = 0x73 then { md with isOn := false }
        else md) := by
  exact ⟨rfl, by simp only [MockDevice.write, cmd_start, cmd_stop, List.length_cons]⟩

/-- Claim C7: for every mock device with `on = false` and every
buffer, Read returns (0, nil), leaves the caller's buffer untouched
and preserves the phase, sequence counter and sample counter; a
disarm (stop write) followed by a rearm (start write) therefore
resumes from the preserved counters, not reset ones. -/
theorem claim_C7 (rnd : Nat → Nat) (s : MockDevice × Nat) (p : List Nat)
    (h : s.1.isOn = false) :
    MockDevice.read rnd s p = (p, 0, none, s) ∧
    (MockDevice.write s.1 [cmd "stop"]).2.2 = { s.1 with isOn := false } ∧
    (MockDevice.write { s.1 with isOn := false } [cmd "start"]).2.2 =
      { s.1 with isOn := true } := by
  obtain ⟨⟨o, sq, dc, rs⟩, r⟩ := s
  refine ⟨?_, ?_, ?_⟩
  · simp only at h
    simp [MockDevice.read, h]
  · simp [MockDevice.write]
  · simp [MockDevice.write]

/-- Witness for claim C7 at a concrete disarmed device with non-zero
counters and a non-empty buffer. -/
theorem claim_C7_witness :
    MockDevice.read (fun _ => 0) (⟨false, 3, 7, 2⟩, 5) [9, 9] =
      ([9, 9], 0, none, (⟨false, 3, 7, 2⟩, 5)) ∧
    (MockDevice.write (⟨false, 3, 7, 2⟩ : MockDevice) [cmd "stop"]).2.2 =
      { (⟨false, 3, 7, 2⟩ : MockDevice) with isOn := false } ∧
    (MockDevice.write { (⟨false, 3, 7, 2⟩ : MockDevice) with isOn := false }
        [cmd "start"]).2.2 =
      { (⟨false, 3, 7, 2⟩ : MockDevice) with isOn := true } :=
  claim_C7 (fun _ => 0) (⟨false, 3, 7, 2⟩, 5) [9, 9] rfl

/-! ### Claim C9: what the polling loop retries -/

/-- Claim C9: in the handshake's polling loop, the only read outcome
treated as "no data available" and retried is the `io.EOF` error (the
window and `idx` are untouched); a read that returns zero bytes with
no error is not retried — the byte already sitting in the one-byte
read buffer (`bufB`, which is 0 before any byte has ever been
received) is pushed into the 3-byte window exactly as a freshly
delivered byte would be; a one-byte read pushes the delivered byte;
any other error aborts the loop. -/
theorem claim_C9 (t : Transport) (fuel n : Nat) (st : TState) (bufB : Nat)
    (scr : Nat × Nat × Nat) (idx : Nat) :
    Device.resetPoll t (fuel + 1) n st bufB scr idx =
      match t.reads st.rpos with
      | .eof => Device.resetPoll t fuel n { st with rpos := st.rpos + 1 } bufB scr idx
      | .fail c => (some (n, some (.other c)), { st with rpos := st.rpos + 1 })
      | .data none => Device.pollPush t fuel n { st with rpos := st.rpos + 1 } bufB scr idx
      | .data (some b) => Device.pollPush t fuel n { st with rpos := st.rpos + 1 } b scr idx := by
  cases h : t.reads st.rpos with
  | eof => simp [Device.resetPoll, Device.read, h]
  | fail c => simp [Device.resetPoll, Device.read, h]
  | data o => cases o <;> simp [Device.resetPoll, Device.read, Device.pollPush, h]

/-! ### The reset handshake's self-recursion (claims C1, C2, C3) -/

/-- A transport on which every write succeeds. -/
def WritesOk (t : Transport) : Prop := ∀ i b, ∃ n, t.writes i b = WriteOut.ok n

theorem transportC1_writesOk : WritesOk transportC1 := fun _ b => ⟨b.length, rfl⟩

theorem transportC2_writesOk : WritesOk transportC2 := fun _ b => ⟨b.length, rfl⟩

/-- On any transport, a write whose buffer is exactly the stop command
goes straight through to the transport; if that write succeeds it
returns its count with no error and appends the stop buffer to the
write log. -/
theorem write_stop_ok (t : Transport) (hw : WritesOk t) (fuel : Nat) (st : TState) :
    ∃ n0, Device.write t (fuel + 1) [cmd "stop"] st =
      (some (n0, none),
       { st with wpos := st.wpos + 1, wlog := st.wlog ++ [[cmd "stop"]] }) := by
  obtain ⟨n0, hn0⟩ := hw st.wpos [cmd "stop"]
  refine ⟨n0, ?_⟩
  simp only [cmd_stop] at hn0
  simp [Device.write, isReset, hn0]

/-- On any transport that accepts writes, `Device.Write` of a reset
buffer never finishes, for any amount of fuel, and the only buffers it
ever hands to the transport are stop commands: `Device.reset` sends
its reset byte through `Device.Write`, which recognises it and
re-enters `Device.reset`. -/
theorem write_reset_diverges (t : Transport) (hw : WritesOk t) :
    ∀ fuel st, (Device.write t fuel [cmd "reset"] st).1 = none ∧
      ∀ e ∈ (Device.write t fuel [cmd "reset"] st).2.wlog,
        e ∈ st.wlog ∨ e = [cmd "stop"] := by
  intro fuel
  induction fuel using Nat.strong_induction_on with
  | _ fuel ih =>
    intro st
    match fuel with
    | 0 => exact ⟨rfl, fun e he => Or.inl he⟩
    | 1 => exact ⟨rfl, fun e he => Or.inl he⟩
    | 2 => exact ⟨rfl, fun e he => Or.inl he⟩
    | (g + 3) =>
      have hres : isReset [cmd "reset"] = true := by decide
      obtain ⟨n0, hA⟩ := write_stop_ok t hw g st
      set st1 : TState :=
        { st with wpos := st.wpos + 1, wlog := st.wlog ++ [[cmd "stop"]] } with hst1
      obtain ⟨hB1, hB2⟩ := ih (g + 1) (by omega) st1
      rcases hw2 : Device.write t (g + 1) [cmd "reset"] st1 with ⟨r2, st2⟩
      rw [hw2] at hB1 hB2
      simp only at hB1 hB2
      subst hB1
      have hreset : Device.reset t (g + 2) st = (none, st2) := by
        show Device.reset t ((g + 1) + 1) st = (none, st2)
        simp only [Device.reset, hA, hw2]
      have hwrite : Device.write t (g + 3) [cmd "reset"] st = (none, st2) := by
        show Device.write t ((g + 2) + 1) [cmd "reset"] st = (none, st2)
        simp only [Device.write, hres, if_true, hreset]
      rw [hwrite]
      refine ⟨rfl, ?_⟩
      intro e he
      rcases hB2 e he with h1 | h1
      · simp only [List.mem_append, List.mem_singleton] at h1
        exact h1
      · exact Or.inr h1

/-- Claim C1 (code bug): on the transport of claim C1 — writes all
accepted, reads delivering 0x01, 0x24, 0x24, 0x24, 0x02 — the claimed
behaviour of `Device.Write` on a reset buffer (complete the handshake
and return (3, nil) after exactly one start write) does not occur: for
every amount of fuel the call has not returned, and the start command
is never among the buffers written to the transport (only stop
commands ever are), because `Device.reset` sends its reset byte back
through `Device.Write`, which re-enters `Device.reset` forever. -/
theorem claim_C1 : ∀ fuel,
    (Device.write transportC1 fuel [cmd "reset"] TState.start).1 = none ∧
    [cmd "start"] ∉ (Device.write transportC1 fuel [cmd "reset"] TState.start).2.wlog := by
  intro fuel
  obtain ⟨h1, h2⟩ := write_reset_diverges transportC1 transportC1_writesOk fuel TState.start
  refine ⟨h1, ?_⟩
  intro hmem
  rcases h2 [cmd "start"] hmem with h | h
  · simp [TState.start] at h
  · simp at h

/-- Claim C2 (code bug): on a transport whose writes all succeed and
whose read stream is nothing but consecutive init bytes (0x24), the
handshake started by `Device.Write` still does not terminate for any
amount of fuel — the recursion through the reset write prevents the
polling loop from ever running, contradicting the claimed termination
condition. -/
theorem claim_C2 : ∀ fuel,
    (Device.write transportC2 fuel [cmd "reset"] TState.start).1 = none :=
  fun fuel => (write_reset_diverges transportC2 transportC2_writesOk fuel TState.start).1

/-- Counterexample to claim C3: on the transport whose first write
(the stop command) succeeds and whose next write fails, the handshake
aborts with one byte accumulated — `Device.reset` indeed returns
(1, error) — but `Device.Write` hands its caller (0, error): the
partial byte count does not accompany the error to the caller. -/
theorem claim_C3_counterexample :
    (Device.write transportC3 10 [cmd "reset"] TState.start).1 =
      some (0, some (Err.other 7)) ∧
    (Device.reset transportC3 9 TState.start).1 = some (1, some (Err.other 7)) ∧
    (0 : Nat) ≠ 1 := by
  refine ⟨by decide, by decide, by decide⟩

/-- Claim C3 as amended: whenever the handshake (or any write) aborts
with an error, `Device.Write` returns byte count 0 to its caller; the
partial accumulated count appears only in `Device.reset`'s own return
value, which `Device.Write` discards. -/
theorem claim_C3_amended (t : Transport) (fuel : Nat) (buf : List Nat) (st : TState)
    (n : Nat) (e : Err)
    (h : (Device.write t fuel buf st).1 = some (n, some e)) : n = 0 := by
  match fuel with
  | 0 => exact absurd h (by simp [Device.write])
  | fuel + 1 =>
    rw [show Device.write t (fuel + 1) buf st =
      if isReset buf then
        match Device.reset t fuel st with
        | (none, st2) => (none, st2)
        | (some (_, some e), st2) => (some (0, some e), st2)
        | (some (n, none), st2) => (some (n, none), st2)
      else
        match t.writes st.wpos buf with
        | .ok n => (some (n, none),
            { st with wpos := st.wpos + 1, wlog := st.wlog ++ [buf] })
        | .fail c => (some (0, some (.other c)),
            { st with wpos := st.wpos + 1, wlog := st.wlog ++ [buf] })
      from by simp [Device.write]] at h
    by_cases hr : isReset buf
    · rw [if_pos hr] at h
      rcases hres : Device.reset t fuel st with ⟨r, st2⟩
      rw [hres] at h
      match r with
      | none => simp at h
      | some (m, none) => simp at h
      | some (m, some e2) =>
        simp only at h
        exact (Prod.mk.injEq _ _ _ _ ▸ (Option.some.injEq _ _ ▸ h)).1.symm ▸ rfl
    · rw [if_neg hr] at h
      rcases hwr : t.writes st.wpos buf with n2 | c
      · rw [hwr] at h
        simp at h
      · rw [hwr] at h
        simp only at h
        exact (Prod.mk.injEq _ _ _ _ ▸ (Option.some.injEq _ _ ▸ h)).1.symm ▸ rfl

/-- Witness for the amended claim C3 at the concrete transport of the
counterexample: the error return of fuel-10 `Device.Write` there
carries byte count 0. -/
theorem claim_C3_amended_witness : (0 : Nat) = 0 :=
  claim_C3_amended transportC3 10 [cmd "reset"] TState.start 0 (Err.other 7) (by decide)

/-! ### The mock device's packet stream (claims C4, C5) -/

theorem mockIter_add (rnd : Nat → Nat) (s : MockDevice × Nat) (a b : Nat) :
    mockIter rnd s (a + b) = mockIter rnd (mockIter rnd s a) b := by
  induction b with
  | zero => rfl
  | succ b ih => rw [← Nat.add_assoc, mockIter, ih, mockIter]

theorem mockStream_shift (rnd : Nat → Nat) (s : MockDevice × Nat) (a n : Nat) :
    mockStream rnd s (a + n) = mockStream rnd (mockIter rnd s a) n := by
  simp [mockStream, mockIter_add]

/-- From any reachable read phase (0..4) the slot loop body fills the
slot (some byte is emitted), the phase stays in 0..4, and `on` is
untouched. -/
theorem readStep_total (rnd : Nat → Nat) (s : MockDevice × Nat) (h : s.1.readstate ≤ 4) :
    ∃ b s2, MockDevice.readStep rnd s = (some b, s2) ∧
      s2.1.readstate ≤ 4 ∧ s2.1.isOn = s.1.isOn := by
  obtain ⟨⟨o, q, dc, rs⟩, r⟩ := s
  simp only at h ⊢
  interval_cases rs
  · exact ⟨cmd "footer", (⟨o, q, dc, 1⟩, r), rfl, by simp, rfl⟩
  · exact ⟨cmd "header", (⟨o, q, dc, 2⟩, r), rfl, by simp, rfl⟩
  · exact ⟨q, (⟨o, q, dc, 3⟩, r), rfl, by simp, rfl⟩
  · by_cases hdc : (dc + 1) % 256 = 30
    · refine ⟨rnd r % 256, (⟨o, q, 0, 4⟩, r + 1), ?_, by simp, rfl⟩
      simp [MockDevice.readStep, hdc]
    · refine ⟨rnd r % 256, (⟨o, q, (dc + 1) % 256, 3⟩, r + 1), ?_, by simp, rfl⟩
      simp [MockDevice.readStep, hdc]
  · exact ⟨cmd "footer", (⟨o, (q + 1) % 256, dc, 1⟩, r), rfl, by simp, rfl⟩

/-- The slot loop of `MockDevice.Read`, started in a reachable phase,
fills every slot with the corresponding byte of the emission stream
and leaves the machine at the correspondingly advanced state. -/
theorem readLoop_stream (rnd : Nat → Nat) :
    ∀ (p : List Nat) (s : MockDevice × Nat), s.1.readstate ≤ 4 →
      MockDevice.readLoop rnd s p =
        ((List.range p.length).map (mockStream rnd s), p.length, mockIter rnd s p.length) := by
  intro p
  induction p with
  | nil =>
    intro s h
    simp [MockDevice.readLoop, mockIter]
  | cons slot rest ih =>
    intro s h
    obtain ⟨b, s2, hb, hle, _⟩ := readStep_total rnd s h
    have hstream0 : mockStream rnd s 0 = b := by
      simp [mockStream, mockIter, hb]
    have hiter1 : mockIter rnd s 1 = s2 := by
      simp [mockIter, hb]
    have hstep : MockDevice.readLoop rnd s (slot :: rest) =
        (b :: (MockDevice.readLoop rnd s2 rest).1,
         (MockDevice.readLoop rnd s2 rest).2.1 + 1,
         (MockDevice.readLoop rnd s2 rest).2.2) := by
      rw [MockDevice.readLoop, hb]
    rw [hstep, ih s2 hle]
    have hlist : (List.range (rest.length + 1)).map (mockStream rnd s) =
        b :: (List.range rest.length).map (mockStream rnd s2) := by
      rw [List.range_succ_eq_map]
      simp only [List.map_cons, List.map_map]
      rw [hstream0]
      refine congrArg (b :: ·) (List.map_congr_left ?_)
      intro i _
      show mockStream rnd s (i + 1) = mockStream rnd s2 i
      rw [show i + 1 = 1 + i from Nat.add_comm _ _, mockStream_shift, hiter1]
    have hiterN : mockIter rnd s (rest.length + 1) = mockIter rnd s2 rest.length := by
      rw [show rest.length + 1 = 1 + rest.length from Nat.add_comm _ _, mockIter_add, hiter1]
    simp only [List.length_cons]
    rw [hlist, hiterN]

theorem readStep_payload (rnd : Nat → Nat) (q j r : Nat) (h : j ≤ 28) :
    MockDevice.readStep rnd (⟨true, q, j, 3⟩, r) =
      (some (rnd r % 256), (⟨true, q, j + 1, 3⟩, r + 1)) := by
  have h1 : (j + 1) % 256 = j + 1 := Nat.mod_eq_of_lt (by omega)
  have h2 : ¬(j + 1) % 256 = 30 := by
    rw [h1]
    omega
  simp [MockDevice.readStep, h1, h2]
  omega

theorem readStep_payload_last (rnd : Nat → Nat) (q r : Nat) :
    MockDevice.readStep rnd (⟨true, q, 29, 3⟩, r) =
      (some (rnd r % 256), (⟨true, q, 0, 4⟩, r + 1)) := by
  simp [MockDevice.readStep]

theorem readStep_payload_emit (rnd : Nat → Nat) (q j r : Nat) :
    (MockDevice.readStep rnd (⟨true, q, j, 3⟩, r)).1 = some (rnd r % 256) := by
  simp only [MockDevice.readStep]
  split <;> rfl

theorem mockIter_payload (rnd : Nat → Nat) (q r : Nat) : ∀ (i j : Nat), j + i ≤ 29 →
    mockIter rnd (⟨true, q, j, 3⟩, r) i = (⟨true, q, j + i, 3⟩, r + i) := by
  intro i
  induction i with
  | zero =>
    intro j h
    rfl
  | succ i ih =>
    intro j h
    rw [mockIter, ih j (by omega), readStep_payload rnd q (j + i) (r + i) (by omega)]
    rfl

theorem mockIter_payload_full (rnd : Nat → Nat) (q r : Nat) :
    mockIter rnd (⟨true, q, 0, 3⟩, r) 30 = (⟨true, q, 0, 4⟩, r + 30) := by
  rw [show (30 : Nat) = 29 + 1 from rfl, mockIter,
      mockIter_payload rnd q r 29 0 (by omega), readStep_payload_last]

theorem mockIter_packet32 (rnd : Nat → Nat) (k : Nat) :
    mockIter rnd (packetState k) 32 = (⟨true, k % 256, 0, 4⟩, 30 * k + 30) := by
  have h2 : mockIter rnd (packetState k) 2 = (⟨true, k % 256, 0, 3⟩, 30 * k) := rfl
  rw [show (32 : Nat) = 2 + 30 from rfl, mockIter_add, h2, mockIter_payload_full]

theorem mockIter_packet (rnd : Nat → Nat) (k : Nat) :
    mockIter rnd (packetState k) 33 = packetState (k + 1) := by
  rw [show (33 : Nat) = 32 + 1 from rfl, mockIter, mockIter_packet32]
  show ((⟨true, (k % 256 + 1) % 256, 0, 1⟩ : MockDevice), 30 * k + 30) = packetState (k + 1)
  have hm : (k % 256 + 1) % 256 = (k + 1) % 256 := by
    conv_rhs => rw [Nat.add_mod]
  rw [hm]
  rfl

theorem mockIter_armed (rnd : Nat → Nat) : ∀ k,
    mockIter rnd armedMock (1 + 33 * k) = packetState k := by
  intro k
  induction k with
  | zero => rfl
  | succ k ih =>
    rw [show 1 + 33 * (k + 1) = (1 + 33 * k) + 33 from by ring, mockIter_add, ih,
        mockIter_packet]

theorem mockStream_armed_footer (rnd : Nat → Nat) (k : Nat) :
    mockStream rnd armedMock (33 * k) = 0xc0 := by
  cases k with
  | zero => rfl
  | succ k =>
    rw [show 33 * (k + 1) = (1 + 33 * k) + 32 from by ring, mockStream_shift,
        mockIter_armed]
    simp only [mockStream]
    rw [mockIter_packet32]
    rfl

theorem mockStream_armed_header (rnd : Nat → Nat) (k : Nat) :
    mockStream rnd armedMock (33 * k + 1) = 0xa0 := by
  rw [show 33 * k + 1 = (1 + 33 * k) + 0 from by ring, mockStream_shift, mockIter_armed]
  rfl

theorem mockStream_armed_seq (rnd : Nat → Nat) (k : Nat) :
    mockStream rnd armedMock (33 * k + 2) = k % 256 := by
  rw [show 33 * k + 2 = (1 + 33 * k) + 1 from by ring, mockStream_shift, mockIter_armed]
  rfl

theorem mockStream_armed_payload (rnd : Nat → Nat) (k j : Nat) (h : j ≤ 29) :
    mockStream rnd armedMock (33 * k + 3 + j) = rnd (30 * k + j) % 256 := by
  rw [show 33 * k + 3 + j = (1 + 33 * k) + (2 + j) from by ring, mockStream_shift,
      mockIter_armed]
  have h2 : mockIter rnd (packetState k) (2 + j) = (⟨true, k % 256, j, 3⟩, 30 * k + j) := by
    rw [mockIter_add,
        show mockIter rnd (packetState k) 2 = ((⟨true, k % 256, 0, 3⟩ : MockDevice), 30 * k)
          from rfl,
        mockIter_payload rnd (k % 256) (30 * k) j 0 (by omega)]
    simp
  simp only [mockStream]
  rw [h2, readStep_payload_emit]
  rfl

/-- Along the armed mock device's run the machine stays armed and in a
reachable read phase. -/
theorem armed_iter_good (rnd : Nat → Nat) : ∀ a,
    (mockIter rnd armedMock a).1.isOn = true ∧
      (mockIter rnd armedMock a).1.readstate ≤ 4 := by
  intro a
  induction a with
  | zero =>
    refine ⟨rfl, ?_⟩
    show (0 : Nat) ≤ 4
    omega
  | succ a ih =>
    obtain ⟨h1, h2⟩ := ih
    obtain ⟨b, s2, hb, hle, hon⟩ := readStep_total rnd (mockIter rnd armedMock a) h2
    rw [mockIter, hb]
    exact ⟨hon.trans h1, hle⟩

/-- Counterexample to claim C4: if the armed mock device's emission
were a repetition of disjoint 34-byte packets each shaped footer,
header, sequence, 30 payload bytes, footer, then byte 34 of the run —
the first byte of the second packet — would be the footer 0xC0.
Reading 35 slots from the freshly armed device shows byte 34 is the
header 0xA0 instead: the trailing footer of one packet is the leading
footer of the next. -/
theorem claim_C4_counterexample :
    (MockDevice.read (fun _ => 0) armedMock (List.replicate 35 9)).1.getD 34 0 = 0xa0 ∧
    (0xa0 : Nat) ≠ 0xc0 := by
  refine ⟨by decide, by decide⟩

/-- Claim C4 as amended: while armed, every packet occupies a 34-byte
window of the emitted stream shaped footer, header, sequence byte, 30
payload bytes, footer — but consecutive windows overlap by one byte
(the shared footer), so packet `k`'s window starts at offset `33 * k`:
its footer, header and sequence byte sit at offsets `33k`, `33k + 1`,
`33k + 2`, its 30 payload bytes at `33k + 3 + j` (`j ≤ 29`, drawn from
the random source), and its closing footer at `33k + 33`, which is
also the next packet's opening footer. -/
theorem claim_C4_amended (rnd : Nat → Nat) (k j : Nat) (h : j ≤ 29) :
    mockStream rnd armedMock (33 * k) = 0xc0 ∧
    mockStream rnd armedMock (33 * k + 1) = 0xa0 ∧
    mockStream rnd armedMock (33 * k + 2) = k % 256 ∧
    mockStream rnd armedMock (33 * k + 3 + j) = rnd (30 * k + j) % 256 ∧
    mockStream rnd armedMock (33 * k + 33) = 0xc0 := by
  refine ⟨mockStream_armed_footer rnd k, mockStream_armed_header rnd k,
    mockStream_armed_seq rnd k, mockStream_armed_payload rnd k j h, ?_⟩
  rw [show 33 * k + 33 = 33 * (k + 1) from by ring]
  exact mockStream_armed_footer rnd (k + 1)

/-- Witness for the amended claim C4 at packet 0, payload index 0, on
a constant random source. -/
theorem claim_C4_amended_witness :
    mockStream (fun _ => 77) armedMock (33 * 0) = 0xc0 ∧
    mockStream (fun _ => 77) armedMock (33 * 0 + 1) = 0xa0 ∧
    mockStream (fun _ => 77) armedMock (33 * 0 + 2) = 0 % 256 ∧
    mockStream (fun _ => 77) armedMock (33 * 0 + 3 + 0) = (fun _ => 77) (30 * 0 + 0) % 256 ∧
    mockStream (fun _ => 77) armedMock (33 * 0 + 33) = 0xc0 :=
  claim_C4_amended (fun _ => 77) 0 0 (by omega)

/-- Claim C5: reading any number of slots from the freshly armed mock
device — at any point `a` of its run, so in particular across
successive Read calls, each resuming at the state the previous one
left — fills the buffer with the corresponding segment of the emitted
stream and advances the machine accordingly; that stream carries the
footer 0xC0 at offset `33k` of every packet `k` (position 0 at the
start, then between each packet's payload and the next packet's
header), the header 0xA0 at offset `33k + 1` and the sequence byte
`k % 256` at offset `33k + 2` — so the
sequence byte increments by exactly one per completed packet, shows
255 in packet 255 and wraps back to 0 in packet 256 — and carries 30
random payload bytes per packet at offsets `33k + 3 + j`. -/
theorem claim_C5 (rnd : Nat → Nat) (a L k : Nat) :
    (MockDevice.read rnd (mockIter rnd armedMock a) (List.replicate L 0)).1 =
      (List.range L).map (fun i => mockStream rnd armedMock (a + i)) ∧
    (MockDevice.read rnd (mockIter rnd armedMock a) (List.replicate L 0)).2.1 = L ∧
    (MockDevice.read rnd (mockIter rnd armedMock a) (List.replicate L 0)).2.2.2 =
      mockIter rnd armedMock (a + L) ∧
    mockStream rnd armedMock (33 * k) = 0xc0 ∧
    mockStream rnd armedMock (33 * k + 1) = 0xa0 ∧
    mockStream rnd armedMock (33 * k + 2) = k % 256 ∧
    (∀ j, j ≤ 29 → mockStream rnd armedMock (33 * k + 3 + j) = rnd (30 * k + j) % 256) ∧
    mockStream rnd armedMock (33 * 255 + 2) = 255 ∧
    mockStream rnd armedMock (33 * 256 + 2) = 0 := by
  obtain ⟨hon, hrs⟩ := armed_iter_good rnd a
  have hloop := readLoop_stream rnd (List.replicate L 0) (mockIter rnd armedMock a) hrs
  have hread : MockDevice.read rnd (mockIter rnd armedMock a) (List.replicate L 0) =
      ((List.range L).map (mockStream rnd (mockIter rnd armedMock a)), L, none,
        mockIter rnd (mockIter rnd armedMock a) L) := by
    rw [MockDevice.read, if_pos hon, hloop]
    simp
  refine ⟨?_, ?_, ?_, mockStream_armed_footer rnd k, mockStream_armed_header rnd k,
    mockStream_armed_seq rnd k,
    fun j hj => mockStream_armed_payload rnd k j hj, ?_, ?_⟩
  · rw [hread]
    exact List.map_congr_left fun i _ => (mockStream_shift rnd armedMock a i).symm
  · rw [hread]
  · rw [hread]
    exact (mockIter_add rnd armedMock a L).symm
  · rw [mockStream_armed_seq rnd 255]
  · rw [mockStream_armed_seq rnd 256]

/-- Witness for claim C5 at concrete inputs: two slots read at the
start of the run on a constant random source, and packet 0's first
payload byte. -/
theorem claim_C5_witness :
    (MockDevice.read (fun _ => 77) (mockIter (fun _ => 77) armedMock 0)
        (List.replicate 2 0)).1 =
      (List.range 2).map (fun i => mockStream (fun _ => 77) armedMock (0 + i)) ∧
    (MockDevice.read (fun _ => 77) (mockIter (fun _ => 77) armedMock 0)
        (List.replicate 2 0)).2.1 = 2 ∧
    (MockDevice.read (fun _ => 77) (mockIter (fun _ => 77) armedMock 0)
        (List.replicate 2 0)).2.2.2 = mockIter (fun _ => 77) armedMock (0 + 2) ∧
    mockStream (fun _ => 77) armedMock (33 * 0) = 0xc0 ∧
    mockStream (fun _ => 77) armedMock (33 * 0 + 1) = 0xa0 ∧
    mockStream (fun _ => 77) armedMock (33 * 0 + 2) = 0 % 256 ∧
    (∀ j, j ≤ 29 → mockStream (fun _ => 77) armedMock (33 * 0 + 3 + j) =
      (fun _ => 77) (30 * 0 + j) % 256) ∧
    mockStream (fun _ => 77) armedMock (33 * 255 + 2) = 255 ∧
    mockStream (fun _ => 77) armedMock (33 * 256 + 2) = 0 :=
  claim_C5 (fun _ => 77) 0 2 0

end OpenBCI
